import Mathlib

/-!
Verification of the reconciliation logic of the terraform-provider-azuread
resource adapters (groups, users, applications, domains).

Go strings are modelled as `String` (or `List Char` where character-level
reasoning is needed), nilable Go pointers as `Option`, Go slices as `List`,
HTTP status codes as `Nat`, and fallible remote calls as `Except` values
supplied to each operation as explicit parameters.  Each resource operation
is a pure function from its remote responses to the sequence of API calls it
issues, the collection payloads it writes back, and its terminal outcome.
-/

set_option maxHeartbeats 1000000

/-! ## Set-diff reconciliation (group members / owners) -/

/-- Modelled from the spec: `utils.Difference` (internal/utils, not under
src/) — "desired minus current = additions; current minus desired =
removals": the elements of `a` that do not occur in `b`. -/
def Difference (a b : List String) : List String :=
  a.filter (fun x => !(b.contains x))

/-- From `groupResourceUpdate` (src/unnamed/part_000):
`membersForRemoval := utils.Difference(existingMembers, desiredMembers)`. -/
def membersForRemoval (existingMembers desiredMembers : List String) : List String :=
  Difference existingMembers desiredMembers

/-- From `groupResourceUpdate` (src/unnamed/part_000):
`membersToAdd := utils.Difference(desiredMembers, existingMembers)`. -/
def membersToAdd (existingMembers desiredMembers : List String) : List String :=
  Difference desiredMembers existingMembers

/-! ## Application data model (hamilton msgraph payloads used by src/) -/

structure AppRole where
  id : Option String
  displayName : String
  isEnabled : Bool
deriving DecidableEq

structure PermissionScope where
  id : Option String
  adminConsentDescription : String
  isEnabled : Bool
deriving DecidableEq

structure KeyCredential where
  keyId : Option String
deriving DecidableEq

structure ApplicationApi where
  oauth2PermissionScopes : List PermissionScope
deriving DecidableEq

structure Application where
  id : Option String
  appRoles : List AppRole
  api : Option ApplicationApi
  keyCredentials : List KeyCredential
deriving DecidableEq

/-- The scope collection of an application's `Api` block (`nil` Api ⇒ empty). -/
def Application.apiScopes (app : Application) : List PermissionScope :=
  match app.api with
  | none => []
  | some api => api.oauth2PermissionScopes

/-- hamilton `Application.AppendAppRole`: fails with `AlreadyExistsError`
when an existing role carries the same (non-nil) ID, else appends. -/
def Application.appendAppRole (app : Application) (role : AppRole) :
    Except String Application :=
  if app.appRoles.any (fun r => r.id.isSome && r.id == role.id) then
    .error "AlreadyExistsError"
  else
    .ok { app with appRoles := app.appRoles ++ [role] }

/-- hamilton `Application.UpdateAppRole`: replaces the roles whose ID matches. -/
def Application.updateAppRole (app : Application) (role : AppRole) : Application :=
  { app with appRoles := app.appRoles.map (fun r => if r.id == role.id then role else r) }

/-- hamilton `Application.RemoveAppRole`: drops the roles whose ID matches. -/
def Application.removeAppRole (app : Application) (role : AppRole) : Application :=
  { app with appRoles := app.appRoles.filter (fun r => !(r.id == role.id)) }

/-- hamilton `ApplicationApi.AppendOAuth2PermissionScope`: fails with
`AlreadyExistsError` when an existing scope carries the same (non-nil) ID. -/
def appendOAuth2PermissionScope (scopes : List PermissionScope) (scope : PermissionScope) :
    Except String (List PermissionScope) :=
  if scopes.any (fun s => s.id.isSome && s.id == scope.id) then
    .error "AlreadyExistsError"
  else
    .ok (scopes ++ [scope])

/-- hamilton `ApplicationApi.UpdateOAuth2PermissionScope`. -/
def updateOAuth2PermissionScope (scopes : List PermissionScope) (scope : PermissionScope) :
    List PermissionScope :=
  scopes.map (fun s => if s.id == scope.id then scope else s)

/-- hamilton `ApplicationApi.RemoveOAuth2PermissionScope`. -/
def removeOAuth2PermissionScope (scopes : List PermissionScope) (scope : PermissionScope) :
    List PermissionScope :=
  scopes.filter (fun s => !(s.id == scope.id))

/-- Modelled from the spec: `helpers.AppRoleFindById` (internal/helpers, not
under src/) — "Locate the target sub-resource entry by ID within the
parent's collection (linear scan)". -/
def AppRoleFindById (app : Application) (roleId : String) : Option AppRole :=
  app.appRoles.find? (fun r => r.id == some roleId)

/-- Modelled from the spec: `helpers.OAuth2PermissionFindById`
(internal/helpers, not under src/) — linear scan of the scope collection. -/
def OAuth2PermissionFindById (app : Application) (scopeId : String) : Option PermissionScope :=
  app.apiScopes.find? (fun s => s.id == some scopeId)

/-! ## Role / scope `value` validation (application_resource.go) -/

structure AppRoleConfig where
  value : String
deriving DecidableEq

structure ScopeConfig where
  value : String
deriving DecidableEq

/-- The combined list of non-empty `value` fields that
`applicationValidateRolesScopes` accumulates (roles first, then scopes). -/
def roleScopeValues (appRoles : List AppRoleConfig) (oauth2Permissions : List ScopeConfig) :
    List String :=
  (appRoles.map (fun r => r.value)).filter (fun v => v ≠ "") ++
    (oauth2Permissions.map (fun s => s.value)).filter (fun v => v ≠ "")

/-- The `encountered` scan in `applicationValidateRolesScopes`: returns the
first value already seen, walking the list left to right. -/
def findDuplicateValue (encountered : List String) : List String → Option String
  | [] => none
  | v :: rest => if v ∈ encountered then some v else findDuplicateValue (encountered ++ [v]) rest

/-- `applicationValidateRolesScopes` (application_resource.go): `some dup`
models the "validation failed: duplicate value found" error, `none` success. -/
def applicationValidateRolesScopes (appRoles : List AppRoleConfig)
    (oauth2Permissions : List ScopeConfig) : Option String :=
  findDuplicateValue [] (roleScopeValues appRoles oauth2Permissions)

/-! ## Domains data source -/

structure Domain where
  id : String
  authenticationType : String
  isDefault : Option Bool
  isInitial : Option Bool
  isVerified : Option Bool
deriving DecidableEq

/-- The inverse of the three `continue` conditions in `domainsDataSourceRead`
(domains_data_source.go): a domain is kept unless an active filter sees an
explicit `false` flag. -/
def domainKeep (onlyDefault onlyInitial includeUnverified : Bool) (v : Domain) : Bool :=
  !(onlyDefault && v.isDefault == some false) &&
    !(onlyInitial && v.isInitial == some false) &&
      !(!includeUnverified && v.isVerified == some false)

/-- `domainsDataSourceRead` (domains_data_source.go), from the `client.List`
response onwards: filter the listed domains, error when none survive. -/
def domainsDataSourceRead (listResult : Except String (Option (List Domain)))
    (onlyDefault onlyInitial includeUnverified : Bool) : Except String (List Domain) :=
  match listResult with
  | .error _ => .error "Could not list domains"
  | .ok result =>
    let domains :=
      match result with
      | none => []
      | some l => l.filter (domainKeep onlyDefault onlyInitial includeUnverified)
    if domains.isEmpty then .error "No domains found for the provided filters"
    else .ok domains

/-! ## User mail-nickname defaulting -/

/-- Go `strings.Split(s, sep)` for a one-character separator, over `List Char`:
splits around every occurrence of `sep`; never returns an empty list. -/
def goSplit (sep : Char) : List Char → List (List Char)
  | [] => [[]]
  | c :: rest =>
    if c = sep then [] :: goSplit sep rest
    else
      match goSplit sep rest with
      | [] => [[c]]
      | h :: t => (c :: h) :: t

structure UserProperties where
  mailNickname : List Char
  userPrincipalName : List Char
deriving DecidableEq

/-- The mail-nickname defaulting in `userResourceCreate`
(src/unnamed/part_002 lines 211-228): an empty configured `mail_nickname`
defaults to `strings.Split(upn, "@")[0]`. -/
def userResourceCreateProperties (upn mailNickname : List Char) : UserProperties :=
  let mailNickName := if mailNickname = [] then (goSplit '@' upn).headD [] else mailNickname
  { mailNickname := mailNickName, userPrincipalName := upn }

/-! ## API call traces and operation outcomes -/

inductive ApiCall
  | get
  | listCall
  | createCall
  | updateCall
  | deleteCall
  | waitForReplication
  | listOwners
  | listMembers
  | checkNameAvailability
  | findByName
  | setOwners
deriving DecidableEq

inductive MutationResult
  | ok
  | errored (msg : String)
  | parentNotFound
  | importAsExists
  | importAsDuplicate
  | removedFromState
deriving DecidableEq

/-- Output of one sub-resource mutation: the API calls issued in order, the
collection payloads written back (one per `client.Update` call, in order),
and the terminal outcome. -/
structure MutationOut (σ : Type) where
  calls : List ApiCall
  writes : List σ
  result : MutationResult
deriving DecidableEq

/-- `applicationAppRoleResourceCreateUpdate`
(src/internal/services/applications/application_password_resource_test.go,
second embedded file).  `isNewResource` selects the create or update path;
`getResult` is the `client.Get` response (error side carries the HTTP
status); `role` is the expanded role whose ID is `some roleId`; `updateOk`
is the `client.Update` outcome.  The trailing re-read is modelled separately
by `applicationAppRoleResourceRead`. -/
def applicationAppRoleResourceCreateUpdate (isNewResource : Bool)
    (getResult : Except Nat Application) (roleId : String) (role : AppRole)
    (updateOk : Bool) : MutationOut (List AppRole) :=
  match getResult with
  | .error status =>
    if status = 404 then ⟨[.get], [], .parentNotFound⟩
    else ⟨[.get], [], .errored "Retrieving Application"⟩
  | .ok app =>
    if isNewResource then
      match app.appendAppRole role with
      | .error _ => ⟨[.get], [], .importAsExists⟩
      | .ok app1 =>
        ⟨[.get, .updateCall], [app1.appRoles],
          if updateOk then .ok else .errored "Updating Application"⟩
    else
      match AppRoleFindById app roleId with
      | none => ⟨[.get], [], .errored "App Role was not found for Application"⟩
      | some _ =>
        let app1 := app.updateAppRole role
        ⟨[.get, .updateCall], [app1.appRoles],
          if updateOk then .ok else .errored "Updating Application"⟩

/-- `applicationAppRoleResourceDelete` (same file): disable the role and
write back, then remove it and write back again. -/
def applicationAppRoleResourceDelete (getResult : Except Nat Application)
    (roleId : String) (update1Ok update2Ok : Bool) : MutationOut (List AppRole) :=
  match getResult with
  | .error status =>
    if status = 404 then ⟨[.get], [], .parentNotFound⟩
    else ⟨[.get], [], .errored "Retrieving Application"⟩
  | .ok app =>
    match AppRoleFindById app roleId with
    | none => ⟨[.get], [], .removedFromState⟩
    | some role =>
      let role1 := { role with isEnabled := false }
      let app1 := app.updateAppRole role1
      if update1Ok then
        let app2 := app1.removeAppRole role1
        if update2Ok then
          ⟨[.get, .updateCall, .updateCall], [app1.appRoles, app2.appRoles], .ok⟩
        else
          ⟨[.get, .updateCall, .updateCall], [app1.appRoles, app2.appRoles],
            .errored "Updating application to remove App Role"⟩
      else ⟨[.get, .updateCall], [app1.appRoles], .errored "Disabling App Role"⟩

/-- `applicationOAuth2PermissionScopeResourceCreateUpdate`
(application_certificate_resource.go, second embedded file).  The create
path first materialises a nil `Api` block, then appends. -/
def applicationOAuth2PermissionScopeResourceCreateUpdate (isNewResource : Bool)
    (getResult : Except Nat Application) (scopeId : String) (scope : PermissionScope)
    (updateOk : Bool) : MutationOut (List PermissionScope) :=
  match getResult with
  | .error status =>
    if status = 404 then ⟨[.get], [], .parentNotFound⟩
    else ⟨[.get], [], .errored "Retrieving Application"⟩
  | .ok app =>
    if isNewResource then
      match appendOAuth2PermissionScope app.apiScopes scope with
      | .error _ => ⟨[.get], [], .importAsExists⟩
      | .ok scopes1 =>
        ⟨[.get, .updateCall], [scopes1],
          if updateOk then .ok else .errored "Updating Application"⟩
    else
      match OAuth2PermissionFindById app scopeId with
      | none => ⟨[.get], [], .errored "OAuth2 Permission was not found for Application"⟩
      | some _ =>
        let scopes1 := updateOAuth2PermissionScope app.apiScopes scope
        ⟨[.get, .updateCall], [scopes1],
          if updateOk then .ok else .errored "Updating Application"⟩

/-- `applicationOAuth2PermissionScopeResourceDelete` (same file): disable the
scope and write back, then remove it and write back again. -/
def applicationOAuth2PermissionScopeResourceDelete (getResult : Except Nat Application)
    (scopeId : String) (update1Ok update2Ok : Bool) : MutationOut (List PermissionScope) :=
  match getResult with
  | .error status =>
    if status = 404 then ⟨[.get], [], .parentNotFound⟩
    else ⟨[.get], [], .errored "Retrieving Application"⟩
  | .ok app =>
    match OAuth2PermissionFindById app scopeId with
    | none => ⟨[.get], [], .removedFromState⟩
    | some scope =>
      let scope1 := { scope with isEnabled := false }
      let scopes1 := updateOAuth2PermissionScope app.apiScopes scope1
      if update1Ok then
        let scopes2 := removeOAuth2PermissionScope scopes1 scope1
        if update2Ok then
          ⟨[.get, .updateCall, .updateCall], [scopes1, scopes2], .ok⟩
        else
          ⟨[.get, .updateCall, .updateCall], [scopes1, scopes2],
            .errored "Removing OAuth2 Permission"⟩
      else ⟨[.get, .updateCall], [scopes1], .errored "Disabling OAuth2 Permission"⟩

/-- The credential-collection rebuild in `applicationCertificateResourceCreate`
(application_certificate_resource.go lines 136-144): walk the existing
credentials, fail (`none`) on the first one whose `KeyId` matches the new
credential, keep the rest. -/
def certNewCredentials (creds : List KeyCredential) (keyId : String) :
    Option (List KeyCredential) :=
  match creds with
  | [] => some []
  | c :: rest =>
    if c.keyId == some keyId then none
    else (certNewCredentials rest keyId).map (fun l => c :: l)

/-- `applicationCertificateResourceCreate` (application_certificate_resource.go
lines 107-159), from the generated credential onwards. -/
def applicationCertificateResourceCreate (getResult : Except Nat Application)
    (credential : KeyCredential) (updateOk : Bool) : MutationOut (List KeyCredential) :=
  match credential.keyId with
  | none => ⟨[], [], .errored "keyId for certificate credential is nil"⟩
  | some kid =>
    match getResult with
    | .error status =>
      if status = 404 then ⟨[.get], [], .parentNotFound⟩
      else ⟨[.get], [], .errored "Retrieving application"⟩
    | .ok app =>
      match certNewCredentials app.keyCredentials kid with
      | none => ⟨[.get], [], .importAsExists⟩
      | some newCreds =>
        let final := newCreds ++ [credential]
        ⟨[.get, .updateCall], [final],
          if updateOk then .ok else .errored "Adding certificate"⟩

/-- `applicationCertificateResourceDelete` (application_certificate_resource.go
lines 214-251): a single write-back of the collection without the credential
(credentials with a nil `KeyId` are also dropped by the rebuild loop). -/
def applicationCertificateResourceDelete (getResult : Except Nat Application)
    (keyId : String) (updateOk : Bool) : MutationOut (List KeyCredential) :=
  match getResult with
  | .error status =>
    if status = 404 then ⟨[.get], [], .parentNotFound⟩
    else ⟨[.get], [], .errored "Retrieving application"⟩
  | .ok app =>
    let newCredentials :=
      app.keyCredentials.filter (fun c => c.keyId.isSome && !(c.keyId == some keyId))
    ⟨[.get, .updateCall], [newCredentials],
      if updateOk then .ok else .errored "Removing certificate credential"⟩

/-! ## Parent-object reads and creates -/

inductive ReadResult
  | ok
  | clearedState
  | errored (msg : String)
deriving DecidableEq

def ReadResult.isErrored : ReadResult → Bool
  | .errored _ => true
  | _ => false

structure ReadOut where
  calls : List ApiCall
  result : ReadResult
deriving DecidableEq

structure msgraph.Group where
  id : Option String
deriving DecidableEq

structure msgraph.User where
  id : Option String
deriving DecidableEq

/-- `groupResourceRead` (src/unnamed/part_000 lines 162-200): a 404 on
`Get` clears the tracking state and returns no error; any other error is
surfaced; afterwards owners and members are listed. -/
def groupResourceRead (getResult : Except Nat msgraph.Group)
    (listOwnersOk listMembersOk : Bool) : ReadOut :=
  match getResult with
  | .error status =>
    if status = 404 then ⟨[.get], .clearedState⟩
    else ⟨[.get], .errored "Retrieving group"⟩
  | .ok _ =>
    if listOwnersOk then
      if listMembersOk then ⟨[.get, .listOwners, .listMembers], .ok⟩
      else ⟨[.get, .listOwners, .listMembers], .errored "Could not retrieve members"⟩
    else ⟨[.get, .listOwners], .errored "Could not retrieve owners"⟩

/-- `userResourceRead` (src/unnamed/part_002 lines 397-437). -/
def userResourceRead (getResult : Except Nat msgraph.User) : ReadOut :=
  match getResult with
  | .error status =>
    if status = 404 then ⟨[.get], .clearedState⟩
    else ⟨[.get], .errored "Retrieving user"⟩
  | .ok _ => ⟨[.get], .ok⟩

/-- `applicationResourceRead` (application_resource.go lines 544-584). -/
def applicationResourceRead (getResult : Except Nat Application)
    (listOwnersOk : Bool) : ReadOut :=
  match getResult with
  | .error status =>
    if status = 404 then ⟨[.get], .clearedState⟩
    else ⟨[.get], .errored "Retrieving Application"⟩
  | .ok _ =>
    if listOwnersOk then ⟨[.get, .listOwners], .ok⟩
    else ⟨[.get, .listOwners], .errored "Could not retrieve owners"⟩

structure CreateOut where
  calls : List ApiCall
  result : MutationResult
deriving DecidableEq

/-- A read outcome propagated as the outcome of the create that tail-calls it. -/
def readToMutation : ReadResult → MutationResult
  | .ok => .ok
  | .clearedState => .removedFromState
  | .errored msg => .errored msg

/-- `groupResourceCreate` (src/unnamed/part_000 lines 94-160) after the
optional duplicate-name guard: create, then wait for replication once the
returned group has an object ID, then tail-call the read. -/
def groupResourceCreateMain (pre : List ApiCall) (createResult : Except String msgraph.Group)
    (waitOk : Bool) (readGetResult : Except Nat msgraph.Group)
    (listOwnersOk listMembersOk : Bool) : CreateOut :=
  match createResult with
  | .error _ => ⟨pre ++ [.createCall], .errored "Creating group"⟩
  | .ok group =>
    match group.id with
    | none => ⟨pre ++ [.createCall], .errored "API returned group with nil object ID"⟩
    | some _ =>
      if waitOk then
        let r := groupResourceRead readGetResult listOwnersOk listMembersOk
        ⟨pre ++ [.createCall, .waitForReplication] ++ r.calls, readToMutation r.result⟩
      else ⟨pre ++ [.createCall, .waitForReplication], .errored "Waiting for Group"⟩

/-- `groupResourceCreate` including the `prevent_duplicate_names` guard
(`helpers.GroupCheckNameAvailability`, a list call). -/
def groupResourceCreate (preventDuplicateNames : Bool)
    (nameCheck : Except String (Option String)) (createResult : Except String msgraph.Group)
    (waitOk : Bool) (readGetResult : Except Nat msgraph.Group)
    (listOwnersOk listMembersOk : Bool) : CreateOut :=
  if preventDuplicateNames then
    match nameCheck with
    | .error _ => ⟨[.checkNameAvailability], .errored "Could not check for existing group(s)"⟩
    | .ok (some _) => ⟨[.checkNameAvailability], .importAsDuplicate⟩
    | .ok none =>
      groupResourceCreateMain [.checkNameAvailability] createResult waitOk readGetResult
        listOwnersOk listMembersOk
  else groupResourceCreateMain [] createResult waitOk readGetResult listOwnersOk listMembersOk

/-- `userResourceCreate` (src/unnamed/part_002 lines 208-306): create, then
wait for replication once the returned user has a non-empty object ID, then
tail-call the read. -/
def userResourceCreate (createResult : Except String msgraph.User) (waitOk : Bool)
    (readGetResult : Except Nat msgraph.User) : CreateOut :=
  match createResult with
  | .error _ => ⟨[.createCall], .errored "Creating user"⟩
  | .ok user =>
    if user.id = none ∨ user.id = some "" then
      ⟨[.createCall], .errored "API returned group with nil object ID"⟩
    else
      if waitOk then
        let r := userResourceRead readGetResult
        ⟨[.createCall, .waitForReplication] ++ r.calls, readToMutation r.result⟩
      else ⟨[.createCall, .waitForReplication], .errored "Waiting for User"⟩

/-- `applicationResourceCreate` (application_resource.go lines 351-443) after
the optional duplicate-name guard: validate role/scope values, create, set
owners when configured, then tail-call the read.  No replication wait. -/
def applicationResourceCreateMain (pre : List ApiCall) (appRoles : List AppRoleConfig)
    (oauth2PermissionScopes : List ScopeConfig) (createResult : Except String Application)
    (hasOwners setOwnersOk : Bool) (readGetResult : Except Nat Application)
    (listOwnersOk : Bool) : CreateOut :=
  match applicationValidateRolesScopes appRoles oauth2PermissionScopes with
  | some _ => ⟨pre, .errored "Checking for duplicate app role / oauth2_permissions values"⟩
  | none =>
    match createResult with
    | .error _ => ⟨pre ++ [.createCall], .errored "Could not create application"⟩
    | .ok app =>
      match app.id with
      | none => ⟨pre ++ [.createCall], .errored "Object ID returned for application is nil/empty"⟩
      | some objectId =>
        if objectId = "" then
          ⟨pre ++ [.createCall], .errored "Object ID returned for application is nil/empty"⟩
        else
          if hasOwners then
            if setOwnersOk then
              let r := applicationResourceRead readGetResult listOwnersOk
              ⟨pre ++ [.createCall, .setOwners] ++ r.calls, readToMutation r.result⟩
            else ⟨pre ++ [.createCall, .setOwners], .errored "Could not set owners"⟩
          else
            let r := applicationResourceRead readGetResult listOwnersOk
            ⟨pre ++ [.createCall] ++ r.calls, readToMutation r.result⟩

/-- `applicationResourceCreate` including the `prevent_duplicate_names` guard
(`helpers.ApplicationFindByName`, a list call). -/
def applicationResourceCreate (preventDuplicateNames : Bool)
    (findByNameResult : Except String (Option Application))
    (appRoles : List AppRoleConfig) (oauth2PermissionScopes : List ScopeConfig)
    (createResult : Except String Application) (hasOwners setOwnersOk : Bool)
    (readGetResult : Except Nat Application) (listOwnersOk : Bool) : CreateOut :=
  if preventDuplicateNames then
    match findByNameResult with
    | .error _ => ⟨[.findByName], .errored "Could not check for existing application(s)"⟩
    | .ok (some existingApp) =>
      match existingApp.id with
      | none => ⟨[.findByName], .errored "Bad API response"⟩
      | some _ => ⟨[.findByName], .importAsDuplicate⟩
    | .ok none =>
      applicationResourceCreateMain [.findByName] appRoles oauth2PermissionScopes createResult
        hasOwners setOwnersOk readGetResult listOwnersOk
  else
    applicationResourceCreateMain [] appRoles oauth2PermissionScopes createResult
      hasOwners setOwnersOk readGetResult listOwnersOk

/-- Number of Replication Waiter invocations in a call trace. -/
def countWaitCalls (calls : List ApiCall) : Nat :=
  calls.count .waitForReplication

/-! ## Theorems -/

theorem mem_Difference {x : String} {a b : List String} :
    x ∈ Difference a b ↔ x ∈ a ∧ x ∉ b := by
  simp [Difference, List.mem_filter]

/-- C1: the set-diff reconciliation of group membership computes additions as
desired minus current and removals as current minus desired; the two are
disjoint, and applying them to the current membership (union the additions,
remove the removals) yields exactly the desired membership, at the level of
logical members (duplicates collapse under the membership view). -/
theorem C1_set_diff_reconciliation (existingMembers desiredMembers : List String) :
    (∀ x : String, x ∈ membersToAdd existingMembers desiredMembers →
        x ∉ membersForRemoval existingMembers desiredMembers) ∧
      ∀ x : String,
        ((x ∈ existingMembers ∨ x ∈ membersToAdd existingMembers desiredMembers) ∧
            x ∉ membersForRemoval existingMembers desiredMembers) ↔
          x ∈ desiredMembers := by
  constructor
  · intro x hx hr
    exact (mem_Difference.mp hr).2 (mem_Difference.mp hx).1
  · intro x
    constructor
    · rintro ⟨hcur | hadd, hnr⟩
      · by_contra hnd
        exact hnr (mem_Difference.mpr ⟨hcur, hnd⟩)
      · exact (mem_Difference.mp hadd).1
    · intro hd
      refine ⟨?_, ?_⟩
      · by_cases hc : x ∈ existingMembers
        · exact Or.inl hc
        · exact Or.inr (mem_Difference.mpr ⟨hd, hc⟩)
      · intro hr
        exact (mem_Difference.mp hr).2 hd

/-- Witness for C1 at the spec's own example: current `{A,B,C}`, desired
`{B,C,D}`; the added member `D` is not among the removals, and membership in
the reconciled set agrees with the desired set at `D`. -/
theorem C1_set_diff_reconciliation_witness :
    "D" ∈ membersToAdd ["A", "B", "C"] ["B", "C", "D"] ∧
      "D" ∉ membersForRemoval ["A", "B", "C"] ["B", "C", "D"] :=
  ⟨by decide,
    (C1_set_diff_reconciliation ["A", "B", "C"] ["B", "C", "D"]).1 "D" (by decide)⟩

theorem goSplit_head (sep : Char) (l : List Char) :
    ∃ t, goSplit sep l = (l.takeWhile (fun c => c != sep)) :: t := by
  induction l with
  | nil => exact ⟨[], rfl⟩
  | cons c rest ih =>
    by_cases hc : c = sep
    · refine ⟨goSplit sep rest, ?_⟩
      simp [goSplit, hc, List.takeWhile]
    · obtain ⟨t, ht⟩ := ih
      refine ⟨t, ?_⟩
      have hbe : (c != sep) = true := by simp [hc]
      simp [goSplit, hc, ht, List.takeWhile, hbe]

/-- C10: when the configured mail nickname is empty, `userResourceCreate`
defaults it to the part of the user principal name before the first `@`
character; otherwise the configured value is used unchanged. -/
theorem C10_mail_nickname_default (upn mailNickname : List Char) :
    (userResourceCreateProperties upn mailNickname).mailNickname =
        (if mailNickname = [] then upn.takeWhile (fun c => c != '@') else mailNickname) ∧
      (userResourceCreateProperties upn mailNickname).userPrincipalName = upn := by
  refine ⟨?_, rfl⟩
  by_cases h : mailNickname = []
  · obtain ⟨t, ht⟩ := goSplit_head '@' upn
    simp [userResourceCreateProperties, h, ht]
  · simp [userResourceCreateProperties, h]

/-- Witness for C10 at `upn = "jdoe@example.com"` with an empty configured
nickname: the created properties carry mail nickname `"jdoe"`. -/
theorem C10_mail_nickname_default_witness :
    (userResourceCreateProperties
        ['j', 'd', 'o', 'e', '@', 'e', 'x', 'a', 'm', 'p', 'l', 'e'] []).mailNickname =
      ['j', 'd', 'o', 'e'] := by
  have h :=
    (C10_mail_nickname_default
      ['j', 'd', 'o', 'e', '@', 'e', 'x', 'a', 'm', 'p', 'l', 'e'] []).1
  rw [h]
  decide

/-- C6: reading a tracked parent object whose `Get` returns HTTP 404 clears
the local tracking state without error, for groups, users and applications;
any other error status is surfaced as an error (and the state is not
cleared). -/
theorem C6_read_not_found_clears_state (s : Nat) (lo lm : Bool) :
    (groupResourceRead (.error 404) lo lm).result = .clearedState ∧
      (userResourceRead (.error 404)).result = .clearedState ∧
      (applicationResourceRead (.error 404) lo).result = .clearedState ∧
      (s ≠ 404 →
        (groupResourceRead (.error s) lo lm).result.isErrored = true ∧
          (userResourceRead (.error s)).result.isErrored = true ∧
          (applicationResourceRead (.error s) lo).result.isErrored = true) := by
  refine ⟨rfl, rfl, rfl, ?_⟩
  intro hs
  refine ⟨?_, ?_, ?_⟩ <;>
    simp [groupResourceRead, userResourceRead, applicationResourceRead, hs,
      ReadResult.isErrored]

/-- Witness for C6 at status 500: all three reads surface an error. -/
theorem C6_read_not_found_clears_state_witness :
    (groupResourceRead (.error 500) true true).result.isErrored = true ∧
      (userResourceRead (.error 500)).result.isErrored = true ∧
      (applicationResourceRead (.error 500) true).result.isErrored = true :=
  (C6_read_not_found_clears_state 500 true true).2.2.2 (by decide)

/-- C9: a successful domains read returns exactly the listed domains passing
the active filters — a filter only excludes a domain whose corresponding
flag is explicitly `false`, so a domain with an absent (nil) flag always
passes that filter — and when no domain passes, the read fails with an error
instead of returning an empty list. -/
theorem C9_domains_filters (l : List Domain) (onlyDefault onlyInitial includeUnverified : Bool) :
    (∀ v : Domain, domainKeep onlyDefault onlyInitial includeUnverified v = true ↔
        ((onlyDefault = true → v.isDefault ≠ some false) ∧
          (onlyInitial = true → v.isInitial ≠ some false) ∧
          (includeUnverified = false → v.isVerified ≠ some false))) ∧
      (l.filter (domainKeep onlyDefault onlyInitial includeUnverified) ≠ [] →
        domainsDataSourceRead (.ok (some l)) onlyDefault onlyInitial includeUnverified =
          .ok (l.filter (domainKeep onlyDefault onlyInitial includeUnverified))) ∧
      (l.filter (domainKeep onlyDefault onlyInitial includeUnverified) = [] →
        domainsDataSourceRead (.ok (some l)) onlyDefault onlyInitial includeUnverified =
          .error "No domains found for the provided filters") := by
  refine ⟨?_, ?_, ?_⟩
  · intro v
    simp only [domainKeep, Bool.and_eq_true, Bool.not_eq_true', Bool.and_eq_false_iff,
      beq_eq_false_iff_ne, Bool.not_eq_true]
    constructor
    · rintro ⟨⟨h1, h2⟩, h3⟩
      refine ⟨?_, ?_, ?_⟩
      · intro hd
        rcases h1 with h | h
        · simp [hd] at h
        · exact h
      · intro hi
        rcases h2 with h | h
        · simp [hi] at h
        · exact h
      · intro hu
        rcases h3 with h | h
        · simp [hu] at h
        · exact h
    · rintro ⟨h1, h2, h3⟩
      refine ⟨⟨?_, ?_⟩, ?_⟩
      · by_cases hd : onlyDefault = true
        · exact Or.inr (h1 hd)
        · exact Or.inl (by simpa using hd)
      · by_cases hi : onlyInitial = true
        · exact Or.inr (h2 hi)
        · exact Or.inl (by simpa using hi)
      · by_cases hu : includeUnverified = false
        · exact Or.inr (h3 hu)
        · exact Or.inl (by simpa using hu)
  · intro hne
    simp [domainsDataSourceRead, List.isEmpty_iff, hne]
  · intro he
    simp [domainsDataSourceRead, List.isEmpty_iff, he]

/-- Witness for C9: one verified default domain and one unverified domain,
with `only_default` set and `include_unverified` unset — only the default
domain is returned; with an all-excluding input list the read errors. -/
theorem C9_domains_filters_witness :
    domainsDataSourceRead
        (.ok (some [⟨"contoso.com", "Managed", some true, none, some true⟩,
          ⟨"pending.com", "Managed", some false, none, some false⟩]))
        true false false =
      .ok [⟨"contoso.com", "Managed", some true, none, some true⟩] ∧
    domainsDataSourceRead
        (.ok (some [⟨"pending.com", "Managed", some false, none, some false⟩]))
        true false false =
      .error "No domains found for the provided filters" := by
  constructor
  · have h :=
      (C9_domains_filters
        [⟨"contoso.com", "Managed", some true, none, some true⟩,
          ⟨"pending.com", "Managed", some false, none, some false⟩] true false false).2.1
    rw [h (by decide)]
    rfl
  · have h :=
      (C9_domains_filters
        [⟨"pending.com", "Managed", some false, none, some false⟩] true false false).2.2
    exact h (by decide)

theorem findDuplicateValue_eq_none (l : List String) :
    ∀ encountered, findDuplicateValue encountered l = none ↔
      (l.Nodup ∧ ∀ x ∈ l, x ∉ encountered) := by
  induction l with
  | nil => intro enc; simp [findDuplicateValue]
  | cons v rest ih =>
    intro enc
    by_cases hv : v ∈ enc
    · simp only [findDuplicateValue, if_pos hv]
      constructor
      · intro h; cases h
      · rintro ⟨_, h⟩
        exact absurd hv (h v (List.mem_cons_self v rest))
    · rw [findDuplicateValue, if_neg hv, ih]
      constructor
      · rintro ⟨hnd, hmem⟩
        have hvr : v ∉ rest := by
          intro hr
          exact (hmem v hr) (List.mem_append_right _ (List.mem_singleton.mpr rfl))
        refine ⟨List.nodup_cons.mpr ⟨hvr, hnd⟩, ?_⟩
        intro x hx
        rcases List.mem_cons.mp hx with h | h
        · subst h; exact hv
        · intro hxe
          exact (hmem x h) (List.mem_append_left _ hxe)
      · rintro ⟨hnd, hmem⟩
        obtain ⟨hvr, hnd'⟩ := List.nodup_cons.mp hnd
        refine ⟨hnd', ?_⟩
        intro x hx hxe
        rcases List.mem_append.mp hxe with h | h
        · exact (hmem x (List.mem_cons_of_mem _ hx)) h
        · have hxv : x = v := List.mem_singleton.mp h
          subst hxv
          exact hvr hx

/-- C7: `applicationValidateRolesScopes` fails exactly when the combined list
of non-empty `value` fields of the app roles and OAuth2 permission scopes
contains a duplicate, and in the application create flow a validation
failure prevents the `Create` network write from being issued. -/
theorem C7_duplicate_value_validation (appRoles : List AppRoleConfig)
    (oauth2Permissions : List ScopeConfig) :
    (applicationValidateRolesScopes appRoles oauth2Permissions ≠ none ↔
        ¬(roleScopeValues appRoles oauth2Permissions).Nodup) ∧
      ∀ (preventDuplicateNames : Bool) (findByNameResult : Except String (Option Application))
        (createResult : Except String Application) (hasOwners setOwnersOk : Bool)
        (readGetResult : Except Nat Application) (listOwnersOk : Bool),
        applicationValidateRolesScopes appRoles oauth2Permissions ≠ none →
          ApiCall.createCall ∉
            (applicationResourceCreate preventDuplicateNames findByNameResult appRoles
              oauth2Permissions createResult hasOwners setOwnersOk readGetResult
              listOwnersOk).calls := by
  constructor
  · rw [not_iff_comm, applicationValidateRolesScopes, not_not,
      findDuplicateValue_eq_none]
    simp
  · intro pd fbn createResult hasOwners setOwnersOk readGet lo hval
    obtain ⟨d, hd⟩ := Option.ne_none_iff_exists'.mp hval
    have hmain : ∀ pre,
        (applicationResourceCreateMain pre appRoles oauth2Permissions createResult
          hasOwners setOwnersOk readGet lo).calls = pre := by
      intro pre
      simp [applicationResourceCreateMain, hd]
    cases pd with
    | false =>
      simp only [applicationResourceCreate, Bool.false_eq_true, if_false, hmain]
      exact List.not_mem_nil _
    | true =>
      simp only [applicationResourceCreate, if_true]
      match fbn with
      | .error _ => simp
      | .ok none => rw [hmain]; simp
      | .ok (some existingApp) =>
        cases hid : existingApp.id <;> simp [hid]

/-- Witness for C7: a role and a scope sharing the value `"User.Read"` fail
validation, and the create flow then issues no `Create` call. -/
theorem C7_duplicate_value_validation_witness :
    ¬(roleScopeValues [⟨"User.Read"⟩] [⟨"User.Read"⟩]).Nodup ∧
      ApiCall.createCall ∉
        (applicationResourceCreate false (.ok none) [⟨"User.Read"⟩] [⟨"User.Read"⟩]
          (.ok ⟨some "app1", [], none, []⟩) false true
          (.ok ⟨some "app1", [], none, []⟩) true).calls :=
  ⟨(C7_duplicate_value_validation [⟨"User.Read"⟩] [⟨"User.Read"⟩]).1.mp (by decide),
    (C7_duplicate_value_validation [⟨"User.Read"⟩] [⟨"User.Read"⟩]).2 false (.ok none)
      (.ok ⟨some "app1", [], none, []⟩) false true (.ok ⟨some "app1", [], none, []⟩) true
      (by decide)⟩

/-- C5 counterexample: updating an app role that is absent from the fetched
application does not delete the local state record (no `removedFromState`
outcome); it fails with a not-found error. -/
theorem C5_update_not_found_counterexample :
    (applicationAppRoleResourceCreateUpdate false
          (.ok ⟨some "app1", [], none, []⟩) "r1" ⟨some "r1", "Role", true⟩ true).result ≠
        MutationResult.removedFromState ∧
      (applicationAppRoleResourceCreateUpdate false
          (.ok ⟨some "app1", [], none, []⟩) "r1" ⟨some "r1", "Role", true⟩ true).result =
        .errored "App Role was not found for Application" := by
  constructor
  · intro h
    simp [applicationAppRoleResourceCreateUpdate, AppRoleFindById] at h
  · rfl

/-- C5 amended: when the target entry of a non-create (update) sub-resource
mutation is not found in the fetched parent's collection, the operation
fails with a not-found error — issuing no write — rather than deleting the
local state record; this holds for app roles and OAuth2 permission scopes. -/
theorem C5_update_not_found_errors (app : Application) (roleId scopeId : String)
    (role : AppRole) (scope : PermissionScope) (updateOk : Bool) :
    (AppRoleFindById app roleId = none →
        (applicationAppRoleResourceCreateUpdate false (.ok app) roleId role updateOk).result =
            .errored "App Role was not found for Application" ∧
          (applicationAppRoleResourceCreateUpdate false (.ok app) roleId role updateOk).writes =
            [] ∧
          (applicationAppRoleResourceCreateUpdate false (.ok app) roleId role
              updateOk).result ≠ .removedFromState) ∧
      (OAuth2PermissionFindById app scopeId = none →
        (applicationOAuth2PermissionScopeResourceCreateUpdate false (.ok app) scopeId scope
              updateOk).result =
            .errored "OAuth2 Permission was not found for Application" ∧
          (applicationOAuth2PermissionScopeResourceCreateUpdate false (.ok app) scopeId scope
              updateOk).writes = [] ∧
          (applicationOAuth2PermissionScopeResourceCreateUpdate false (.ok app) scopeId scope
              updateOk).result ≠ .removedFromState) := by
  constructor
  · intro hfind
    refine ⟨?_, ?_, ?_⟩ <;>
      simp [applicationAppRoleResourceCreateUpdate, hfind]
  · intro hfind
    refine ⟨?_, ?_, ?_⟩ <;>
      simp [applicationOAuth2PermissionScopeResourceCreateUpdate, hfind]

/-- Witness for C5 at an application with no roles and no scopes. -/
theorem C5_update_not_found_errors_witness :
    (applicationAppRoleResourceCreateUpdate false (.ok ⟨some "a1", [], none, []⟩) "r9"
          ⟨some "r9", "Role", true⟩ true).writes = [] ∧
      (applicationOAuth2PermissionScopeResourceCreateUpdate false
          (.ok ⟨some "a1", [], none, []⟩) "s9" ⟨some "s9", "d", true⟩ true).writes = [] :=
  ⟨((C5_update_not_found_errors ⟨some "a1", [], none, []⟩ "r9" "s9" ⟨some "r9", "Role", true⟩
      ⟨some "s9", "d", true⟩ true).1 (by decide)).2.1,
    ((C5_update_not_found_errors ⟨some "a1", [], none, []⟩ "r9" "s9" ⟨some "r9", "Role", true⟩
      ⟨some "s9", "d", true⟩ true).2 (by decide)).2.1⟩

theorem certNewCredentials_eq_none (creds : List KeyCredential) (kid : String) :
    (∃ c ∈ creds, c.keyId = some kid) → certNewCredentials creds kid = none := by
  induction creds with
  | nil => rintro ⟨c, hc, _⟩; cases hc
  | cons c rest ih =>
    rintro ⟨d, hd, hdk⟩
    rcases List.mem_cons.mp hd with h | h
    · subst h
      simp [certNewCredentials, hdk]
    · by_cases hck : c.keyId = some kid
      · simp [certNewCredentials, hck]
      · have hbe : (c.keyId == some kid) = false := beq_eq_false_iff_ne.mpr hck
        simp [certNewCredentials, hbe, ih ⟨d, h, hdk⟩]

/-- C3: creating a sub-resource entry with an explicitly supplied ID that a
collection entry already carries fails with the import-as-exists
(AlreadyExists) outcome and issues no `Update` call, for app roles and for
certificate (key) credentials. -/
theorem C3_create_collision (app : Application) (roleId kid : String) (role : AppRole)
    (credential : KeyCredential) (updateOk : Bool) :
    (role.id = some roleId → (∃ r ∈ app.appRoles, r.id = some roleId) →
        (applicationAppRoleResourceCreateUpdate true (.ok app) roleId role updateOk).result =
            .importAsExists ∧
          (applicationAppRoleResourceCreateUpdate true (.ok app) roleId role updateOk).writes =
            [] ∧
          ApiCall.updateCall ∉
            (applicationAppRoleResourceCreateUpdate true (.ok app) roleId role
              updateOk).calls) ∧
      (credential.keyId = some kid → (∃ c ∈ app.keyCredentials, c.keyId = some kid) →
        (applicationCertificateResourceCreate (.ok app) credential updateOk).result =
            .importAsExists ∧
          (applicationCertificateResourceCreate (.ok app) credential updateOk).writes = [] ∧
          ApiCall.updateCall ∉
            (applicationCertificateResourceCreate (.ok app) credential updateOk).calls) := by
  constructor
  · rintro hrid ⟨r, hr, hrk⟩
    have hany : app.appRoles.any (fun x => x.id.isSome && x.id == role.id) = true := by
      rw [List.any_eq_true]
      exact ⟨r, hr, by simp [hrk, hrid]⟩
    refine ⟨?_, ?_, ?_⟩ <;>
      simp [applicationAppRoleResourceCreateUpdate, Application.appendAppRole, hany]
  · intro hkid hex
    have hnone := certNewCredentials_eq_none app.keyCredentials kid hex
    refine ⟨?_, ?_, ?_⟩ <;>
      simp [applicationCertificateResourceCreate, hkid, hnone]

/-- Witness for C3: an application already holding app role `r1` and key
credential `k1`; both colliding creates stop with import-as-exists. -/
theorem C3_create_collision_witness :
    (applicationAppRoleResourceCreateUpdate true
          (.ok ⟨some "a1", [⟨some "r1", "Role", true⟩], none, [⟨some "k1"⟩]⟩) "r1"
          ⟨some "r1", "Other", true⟩ true).result = .importAsExists ∧
      (applicationCertificateResourceCreate
          (.ok ⟨some "a1", [⟨some "r1", "Role", true⟩], none, [⟨some "k1"⟩]⟩)
          ⟨some "k1"⟩ true).result = .importAsExists :=
  ⟨((C3_create_collision ⟨some "a1", [⟨some "r1", "Role", true⟩], none, [⟨some "k1"⟩]⟩
      "r1" "k1" ⟨some "r1", "Other", true⟩ ⟨some "k1"⟩ true).1 (by decide)
      (by decide)).1,
    ((C3_create_collision ⟨some "a1", [⟨some "r1", "Role", true⟩], none, [⟨some "k1"⟩]⟩
      "r1" "k1" ⟨some "r1", "Other", true⟩ ⟨some "k1"⟩ true).2 (by decide)
      (by decide)).1⟩

/-- C2 counterexample: deleting a key credential performs exactly one
write-back, not two — there is no disable step for certificates. -/
theorem C2_delete_write_backs_counterexample :
    (applicationCertificateResourceDelete (.ok ⟨some "a1", [], none, [⟨some "k1"⟩]⟩)
          "k1" true).writes.length ≠ 2 ∧
      (applicationCertificateResourceDelete (.ok ⟨some "a1", [], none, [⟨some "k1"⟩]⟩)
          "k1" true).writes.length = 1 := by
  decide

/-- C2 amended: deleting an existing app role or OAuth2 permission scope
performs exactly two whole-parent write-backs — the first carrying the entry
with enabled set to false, the second carrying the collection without the
entry — while deleting a key credential performs exactly one write-back
(remove, no disable step); in each case the final written collection no
longer contains the entry. -/
theorem C2_delete_write_backs (app : Application) (roleId scopeId keyId : String) :
    ((AppRoleFindById app roleId).isSome →
        ∃ w1 w2,
          (applicationAppRoleResourceDelete (.ok app) roleId true true).writes = [w1, w2] ∧
            (applicationAppRoleResourceDelete (.ok app) roleId true true).result = .ok ∧
            (∃ r ∈ w1, r.id = some roleId ∧ r.isEnabled = false) ∧
            ∀ r ∈ w2, r.id ≠ some roleId) ∧
      ((OAuth2PermissionFindById app scopeId).isSome →
        ∃ w1 w2,
          (applicationOAuth2PermissionScopeResourceDelete (.ok app) scopeId true
              true).writes = [w1, w2] ∧
            (applicationOAuth2PermissionScopeResourceDelete (.ok app) scopeId true
              true).result = .ok ∧
            (∃ s ∈ w1, s.id = some scopeId ∧ s.isEnabled = false) ∧
            ∀ s ∈ w2, s.id ≠ some scopeId) ∧
      ∃ w, (applicationCertificateResourceDelete (.ok app) keyId true).writes = [w] ∧
        ∀ c ∈ w, c.keyId ≠ some keyId := by
  refine ⟨?_, ?_, ?_⟩
  · intro h
    rw [Option.isSome_iff_exists] at h
    obtain ⟨role, hfind⟩ := h
    have hmem : role ∈ app.appRoles := List.mem_of_find?_eq_some hfind
    have hrid : role.id = some roleId := by simpa using List.find?_some hfind
    simp only [applicationAppRoleResourceDelete, AppRoleFindById] at hfind ⊢
    rw [hfind]
    refine ⟨_, _, rfl, rfl, ?_, ?_⟩
    · refine ⟨{ role with isEnabled := false }, ?_, by simpa using hrid, rfl⟩
      simp only [Application.updateAppRole]
      exact List.mem_map.mpr ⟨role, hmem, by simp⟩
    · intro r hrw hr
      simp only [Application.removeAppRole, List.mem_filter] at hrw
      have hbe : (r.id == ({ role with isEnabled := false } : AppRole).id) = true := by
        simp [hr, hrid]
      rw [hbe] at hrw
      simp at hrw
  · intro h
    rw [Option.isSome_iff_exists] at h
    obtain ⟨scope, hfind⟩ := h
    have hmem : scope ∈ app.apiScopes := List.mem_of_find?_eq_some hfind
    have hsid : scope.id = some scopeId := by simpa using List.find?_some hfind
    simp only [applicationOAuth2PermissionScopeResourceDelete,
      OAuth2PermissionFindById] at hfind ⊢
    rw [hfind]
    refine ⟨_, _, rfl, rfl, ?_, ?_⟩
    · refine ⟨{ scope with isEnabled := false }, ?_, by simpa using hsid, rfl⟩
      simp only [updateOAuth2PermissionScope]
      exact List.mem_map.mpr ⟨scope, hmem, by simp⟩
    · intro s hsw hs
      simp only [removeOAuth2PermissionScope, List.mem_filter] at hsw
      have hbe : (s.id == ({ scope with isEnabled := false } : PermissionScope).id) = true := by
        simp [hs, hsid]
      rw [hbe] at hsw
      simp at hsw
  · refine ⟨_, rfl, ?_⟩
    intro c hc heq
    rw [List.mem_filter] at hc
    have := hc.2
    rw [heq] at this
    simp at this

/-- Witness for C2 at an application holding app role `r1`, scope `s1` and
key credential `k1`. -/
theorem C2_delete_write_backs_witness :
    (applicationAppRoleResourceDelete
          (.ok ⟨some "a1", [⟨some "r1", "Role", true⟩],
            some ⟨[⟨some "s1", "d", true⟩]⟩, [⟨some "k1"⟩]⟩) "r1" true true).result =
        MutationResult.ok ∧
      (applicationOAuth2PermissionScopeResourceDelete
          (.ok ⟨some "a1", [⟨some "r1", "Role", true⟩],
            some ⟨[⟨some "s1", "d", true⟩]⟩, [⟨some "k1"⟩]⟩) "s1" true true).result =
        MutationResult.ok := by
  obtain ⟨h1, h2, h3⟩ :=
    C2_delete_write_backs
      ⟨some "a1", [⟨some "r1", "Role", true⟩], some ⟨[⟨some "s1", "d", true⟩]⟩,
        [⟨some "k1"⟩]⟩ "r1" "s1" "k1"
  obtain ⟨w1, w2, hw, hres, _⟩ := h1 (by decide)
  obtain ⟨v1, v2, hv, hres', _⟩ := h2 (by decide)
  exact ⟨hres, hres'⟩

theorem countWaitCalls_append (a b : List ApiCall) :
    countWaitCalls (a ++ b) = countWaitCalls a + countWaitCalls b := by
  simp [countWaitCalls]

theorem countWait_groupRead (g : Except Nat msgraph.Group) (lo lm : Bool) :
    countWaitCalls (groupResourceRead g lo lm).calls = 0 := by
  cases g with
  | error s => by_cases h : s = 404 <;> simp [groupResourceRead, h, countWaitCalls]
  | ok g' => cases lo <;> cases lm <;> rfl

theorem countWait_userRead (u : Except Nat msgraph.User) :
    countWaitCalls (userResourceRead u).calls = 0 := by
  cases u with
  | error s => by_cases h : s = 404 <;> simp [userResourceRead, h, countWaitCalls]
  | ok u' => rfl

theorem countWait_appRead (a : Except Nat Application) (lo : Bool) :
    countWaitCalls (applicationResourceRead a lo).calls = 0 := by
  cases a with
  | error s => by_cases h : s = 404 <;> simp [applicationResourceRead, h, countWaitCalls]
  | ok a' => cases lo <;> rfl

theorem countWait_groupCreateMain (pre : List ApiCall) (g : msgraph.Group) (gid : String)
    (waitOk : Bool) (gGet : Except Nat msgraph.Group) (lo lm : Bool)
    (hgid : g.id = some gid) (hpre : countWaitCalls pre = 0) :
    countWaitCalls (groupResourceCreateMain pre (.ok g) waitOk gGet lo lm).calls = 1 := by
  simp only [groupResourceCreateMain]
  rw [hgid]
  cases waitOk with
  | true =>
    simp only [if_true]
    rw [countWaitCalls_append, countWaitCalls_append, hpre, countWait_groupRead]
    rfl
  | false =>
    simp only [Bool.false_eq_true, if_false]
    rw [countWaitCalls_append, hpre]
    rfl

theorem countWait_appCreateMain (pre : List ApiCall) (roles : List AppRoleConfig)
    (scopes : List ScopeConfig) (aRes : Except String Application)
    (hasOwners setOwnersOk : Bool) (aGet : Except Nat Application) (lo : Bool)
    (hpre : countWaitCalls pre = 0) :
    countWaitCalls (applicationResourceCreateMain pre roles scopes aRes hasOwners
      setOwnersOk aGet lo).calls = 0 := by
  unfold applicationResourceCreateMain
  split
  · simpa using hpre
  · split
    · rw [countWaitCalls_append, hpre]; rfl
    · split
      · rw [countWaitCalls_append, hpre]; rfl
      · split
        · rw [countWaitCalls_append, hpre]; rfl
        · split
          · split
            · rw [countWaitCalls_append, countWaitCalls_append, hpre, countWait_appRead]; rfl
            · rw [countWaitCalls_append, hpre]; rfl
          · rw [countWaitCalls_append, countWaitCalls_append, hpre, countWait_appRead]; rfl

/-- C4 counterexample: a successful application creation issues no
Replication Waiter call at all — the waiter is not invoked once per Parent
Object creation for applications. -/
theorem C4_waiter_counterexample :
    (applicationResourceCreate false (.ok none) [] [] (.ok ⟨some "a1", [], none, []⟩) false
          true (.ok ⟨some "a1", [], none, []⟩) true).result = MutationResult.ok ∧
      countWaitCalls (applicationResourceCreate false (.ok none) [] []
          (.ok ⟨some "a1", [], none, []⟩) false true (.ok ⟨some "a1", [], none, []⟩)
          true).calls = 0 := by
  constructor <;> rfl

/-- C4 amended: the Replication Waiter is invoked exactly once after a group
or user create succeeds with an object ID; application creation never
invokes it; and no sub-resource mutation (app role, OAuth2 permission
scope, certificate credential — create, update or delete) ever invokes it. -/
theorem C4_replication_waiter (pd : Bool) (nameCheck : Except String (Option String))
    (gRes : Except String msgraph.Group) (uRes : Except String msgraph.User)
    (aRes : Except String Application) (fbn : Except String (Option Application))
    (roles : List AppRoleConfig) (scopes : List ScopeConfig)
    (waitOk hasOwners setOwnersOk lo lm isNew u1 u2 : Bool)
    (gGet : Except Nat msgraph.Group) (uGet : Except Nat msgraph.User)
    (aGet : Except Nat Application) (g : msgraph.Group) (u : msgraph.User)
    (gid uid roleId scopeId keyId : String) (role : AppRole) (scope : PermissionScope)
    (cred : KeyCredential) :
    ((pd = false ∨ nameCheck = .ok none) → gRes = .ok g → g.id = some gid →
        countWaitCalls (groupResourceCreate pd nameCheck gRes waitOk gGet lo lm).calls = 1) ∧
      (uRes = .ok u → u.id = some uid → uid ≠ "" →
        countWaitCalls (userResourceCreate uRes waitOk uGet).calls = 1) ∧
      countWaitCalls (applicationResourceCreate pd fbn roles scopes aRes hasOwners
        setOwnersOk aGet lo).calls = 0 ∧
      countWaitCalls
        (applicationAppRoleResourceCreateUpdate isNew aGet roleId role u1).calls = 0 ∧
      countWaitCalls (applicationAppRoleResourceDelete aGet roleId u1 u2).calls = 0 ∧
      countWaitCalls (applicationOAuth2PermissionScopeResourceCreateUpdate isNew aGet
        scopeId scope u1).calls = 0 ∧
      countWaitCalls
        (applicationOAuth2PermissionScopeResourceDelete aGet scopeId u1 u2).calls = 0 ∧
      countWaitCalls (applicationCertificateResourceCreate aGet cred u1).calls = 0 ∧
      countWaitCalls (applicationCertificateResourceDelete aGet keyId u1).calls = 0 := by
  refine ⟨?_, ?_, ?_, ?_, ?_, ?_, ?_, ?_, ?_⟩
  · intro hpre hg hgid
    subst hg
    cases pd with
    | false => exact countWait_groupCreateMain [] g gid waitOk gGet lo lm hgid rfl
    | true =>
      rcases hpre with hpd | hnc
      · simp at hpd
      · subst hnc
        exact countWait_groupCreateMain [.checkNameAvailability] g gid waitOk gGet lo lm
          hgid rfl
  · intro hu huid hne
    subst hu
    have hcond : ¬(u.id = none ∨ u.id = some "") := by
      rw [huid]
      simp [hne]
    simp only [userResourceCreate, if_neg hcond]
    cases waitOk with
    | true =>
      simp only [if_true]
      rw [countWaitCalls_append, countWait_userRead]
      rfl
    | false =>
      simp only [Bool.false_eq_true, if_false]
      rfl
  · cases pd with
    | false => exact countWait_appCreateMain [] roles scopes aRes hasOwners setOwnersOk aGet lo rfl
    | true =>
      cases fbn with
      | error e => rfl
      | ok o =>
        cases o with
        | none =>
          exact countWait_appCreateMain [.findByName] roles scopes aRes hasOwners setOwnersOk
            aGet lo rfl
        | some ea =>
          cases ea with
          | mk eid eroles eapi ecreds => cases eid <;> rfl
  · unfold applicationAppRoleResourceCreateUpdate
    repeat' split
    all_goals rfl
  · unfold applicationAppRoleResourceDelete
    repeat' split
    all_goals rfl
  · unfold applicationOAuth2PermissionScopeResourceCreateUpdate
    repeat' split
    all_goals rfl
  · unfold applicationOAuth2PermissionScopeResourceDelete
    repeat' split
    all_goals rfl
  · unfold applicationCertificateResourceCreate
    repeat' split
    all_goals rfl
  · unfold applicationCertificateResourceDelete
    repeat' split
    all_goals rfl

/-- Witness for C4: concrete successful group and user creations each invoke
the Replication Waiter exactly once. -/
theorem C4_replication_waiter_witness :
    countWaitCalls (groupResourceCreate false (.ok none) (.ok ⟨some "g1"⟩) true
        (.ok ⟨some "g1"⟩) true true).calls = 1 ∧
      countWaitCalls (userResourceCreate (.ok ⟨some "u1"⟩) true (.ok ⟨some "u1"⟩)).calls = 1 :=
  ⟨(C4_replication_waiter false (.ok none) (.ok ⟨some "g1"⟩) (.ok ⟨some "u1"⟩)
      (.ok ⟨some "a1", [], none, []⟩) (.ok none) [] [] true false true true true true true
      true (.ok ⟨some "g1"⟩) (.ok ⟨some "u1"⟩) (.ok ⟨some "a1", [], none, []⟩) ⟨some "g1"⟩
      ⟨some "u1"⟩ "g1" "u1" "r1" "s1" "k1" ⟨some "r1", "Role", true⟩ ⟨some "s1", "d", true⟩
      ⟨some "k1"⟩).1 (Or.inl rfl) rfl rfl,
    (C4_replication_waiter false (.ok none) (.ok ⟨some "g1"⟩) (.ok ⟨some "u1"⟩)
      (.ok ⟨some "a1", [], none, []⟩) (.ok none) [] [] true false true true true true true
      true (.ok ⟨some "g1"⟩) (.ok ⟨some "u1"⟩) (.ok ⟨some "a1", [], none, []⟩) ⟨some "g1"⟩
      ⟨some "u1"⟩ "g1" "u1" "r1" "s1" "k1" ⟨some "r1", "Role", true⟩ ⟨some "s1", "d", true⟩
      ⟨some "k1"⟩).2.1 rfl rfl (by decide)⟩
